import Mathlib

/-!
A shallow embedding of the check-up test runner (`checkup.go`) and proofs
about its scenario model, resolver, runner and scorer.

Modelling conventions:
* Go strings are Lean `String`; Go `int` is Lean `Int`; a Go `error` value
  is `Option String` (`none` is Go `nil`).
* A Go `map[string]string` is a `List (String × String)` with distinct keys;
  a nil map is `none : Option (List (String × String))` (the source tests
  `GlobalEnv != nil`, so nil and non-nil maps must stay distinguishable).
* Running an external shell subprocess is nondeterministic, so the executor
  takes the subprocess outcome (captured output and exit error) as an input
  (`ScriptOutcome`), and returns the command it would issue (`BashCmd`:
  the working directory and environment slice handed to `exec.Command`).
* An out-of-range list index, which panics in Go, is modelled by `Option`
  results (`none` is the panic).
* Display-only fields of `ScenarioItem` that no modelled function reads
  (`Description`, `Output`, `SecretPhrase`, `Log`, `Fatal`, `Debug`) are
  omitted, as are the wall-clock timing fields (real time is not modelled;
  `Duration` is kept as an inert runtime field).
-/

namespace CheckUp

/-- The outcome of one shell subprocess: its combined output and its exit
error (`none` for exit status 0). -/
structure ScriptOutcome where
  stdout : String
  err : Option String
deriving Repr, DecidableEq

/-- The command `RunBash` hands to `exec.Command`: the `Dir` field and the
`Env` slice (a list of key/value pairs, later entries overriding earlier
ones on collision, as Go's `exec.Cmd.Env` specifies). -/
structure BashCmd where
  Dir : String
  Env : List (String × String)
deriving Repr, DecidableEq

/-- One scenario of the suite (`ScenarioItem` in `checkup.go`): the
YAML-defined data followed by the runtime data and the two unexported
eligibility flags. -/
structure ScenarioItem where
  Name : String := ""
  Case : String := ""
  GlobalEnv : Option (List (String × String)) := none
  Workdir : String := ""
  Script : String := ""
  Skip : Bool := false
  Weight : Int := 0
  Before : List String := []
  After : List String := []
  Status : String := ""
  Result : Option String := none
  Stdout : String := ""
  Duration : String := ""
  canShow : Bool := false
  canRun : Bool := false
deriving Repr, DecidableEq

def ScenarioItem.IsSuccessful (s : ScenarioItem) : Bool :=
  s.Status == "success"

def ScenarioItem.IsFailed (s : ScenarioItem) : Bool :=
  s.Status == "failed"

def ScenarioItem.CanShow (s : ScenarioItem) : Bool :=
  s.canShow

/-- Ranging over a possibly-nil Go map: a nil map yields no pairs. -/
def envPairs : Option (List (String × String)) → List (String × String)
  | none => []
  | some l => l

/-- `ScenarioItem.RunBash`. `environ` is the process environment
(`os.Environ()`), `workdirGlobal` the package-level `workdir` variable the
source assigns to `script.Dir`. Besides the updated scenario it returns
the issued command (`none` when no subprocess was launched). -/
def ScenarioItem.RunBash (s : ScenarioItem) (environ : List (String × String))
    (workdirGlobal : String) (outcome : ScriptOutcome) :
    ScenarioItem × Option BashCmd :=
  if s.Script ≠ "" then
    ({ s with
        Stdout := outcome.stdout.trim,
        Result := outcome.err,
        Status := if outcome.err = none then "success" else "failed" },
      some { Dir := workdirGlobal, Env := environ ++ envPairs s.GlobalEnv })
  else
    (s, none)

/-- The suite (`suitConfig` in the source). The aggregate fields the
source stores into the struct (`all`, `successfull`, `failed`, `score`,
`duration`) are returned by `signOff` instead (see `Summary`). -/
structure suitConfig where
  Name : String := ""
  Cases : List ScenarioItem := []
deriving Repr, DecidableEq

/-- `suitConfig.getScenarioIds`: indices of the cases with `Skip` false and
`canShow || canRun`, in ascending order. -/
def suitConfig.getScenarioIds (c : suitConfig) : List Nat :=
  (List.range c.Cases.length).filter fun i =>
    ((c.Cases[i]?).map fun item => !item.Skip && (item.canShow || item.canRun)).getD false

/-- `suitConfig.getScenarioCount`: how many of the selected indices are
displayable. -/
def suitConfig.getScenarioCount (c : suitConfig) : Nat :=
  (c.getScenarioIds.filter fun i =>
    ((c.Cases[i]?).map fun item => item.CanShow).getD false).length

/-- The loop of `getIdByName`, carrying the running index. -/
def getIdByNameAux (name : String) : Nat → List ScenarioItem → Int
  | _, [] => -1
  | id, item :: rest =>
      if item.Name = name then (id : Int) else getIdByNameAux name (id + 1) rest

/-- `getIdByName` on a plain case list: the first index whose `Name`
matches, `-1` when none does. -/
def getIdByNameL (cases : List ScenarioItem) (name : String) : Int :=
  getIdByNameAux name 0 cases

def suitConfig.getIdByName (c : suitConfig) (name : String) : Int :=
  getIdByNameL c.Cases name

/-- The aggregates `signOff` computes (`sum`/`max` are the scoring
numerator and denominator; the source then stores `successfull`, `failed`,
`all` and `score = 100 * float64(sum) / float64(max)`). -/
structure Summary where
  sum : Int
  max : Int
  failed : Nat
  all : Nat
  successfull : Int
deriving Repr, DecidableEq

/-- The accumulator of the `signOff` loop. -/
structure SignOffAcc where
  sum : Int := 0
  max : Int := 0
  failed : Nat := 0
  all : Nat := 0
deriving Repr, DecidableEq

/-- The body of the `signOff` loop for the scenario `item`. -/
def signOffStepE (acc : SignOffAcc) (item : ScenarioItem) : SignOffAcc :=
  if item.CanShow then
    if item.IsSuccessful then
      { acc with all := acc.all + 1, max := acc.max + item.Weight, sum := acc.sum + item.Weight }
    else
      { acc with all := acc.all + 1, max := acc.max + item.Weight, failed := acc.failed + 1 }
  else
    acc

/-- The body of the `signOff` loop at index `i` (`item := c.Cases[i]`). -/
def signOffStep (c : suitConfig) (acc : SignOffAcc) (i : Nat) : SignOffAcc :=
  match c.Cases[i]? with
  | some item => signOffStepE acc item
  | none => acc

/-- `suitConfig.signOff`: fold the loop body over `getScenarioIds` and
assemble the stored aggregates (`successfull := all - failed`). -/
def suitConfig.signOff (c : suitConfig) : Summary :=
  let a := List.foldl (signOffStep c) {} c.getScenarioIds
  { sum := a.sum, max := a.max, failed := a.failed, all := a.all,
    successfull := (a.all : Int) - (a.failed : Int) }

/-- The score expression of `signOff`, `100 * float64(sum) / float64(max)`,
read in `ℚ`. When `max = 0` the Go expression is a float `NaN` while `ℚ`
division yields `0`, so theorems only speak about `score` under a
`max ≠ 0` hypothesis. -/
def suitConfig.score (c : suitConfig) : ℚ :=
  100 * (c.signOff.sum : ℚ) / (c.signOff.max : ℚ)

/-- The guard of `printSummary`: the summary line is printed only when
`all > 0`. -/
def printSummaryEmits (s : Summary) : Bool :=
  s.all > 0

/-- One step of the resolver loop of `getConf` on one scenario, threading
the running state (current inherited environment, current inherited
working directory). `getwd` stands for `os.Getwd()`. -/
def getConfStep (getwd : String) (s : ScenarioItem)
    (st : Option (List (String × String)) × String) :
    ScenarioItem × (Option (List (String × String)) × String) :=
  let envs := st.1
  let wdir := st.2
  let p1 :=
    match s.GlobalEnv with
    | some g => (s, some g)
    | none => ({ s with GlobalEnv := envs }, envs)
  let s := p1.1
  let envs := p1.2
  let p2 :=
    if s.Workdir ≠ "" then (s, s.Workdir)
    else ({ s with Workdir := wdir }, if wdir = "" then getwd else wdir)
  let s := p2.1
  let wdir := p2.2
  let s := if s.Case ≠ "" then { s with canShow := true, canRun := true } else s
  let s := if s.Name = "" then { s with canRun := true } else s
  let s := if s.CanShow then (if s.Weight = 0 then { s with Weight := 1 } else s) else s
  (s, (envs, wdir))

/-- The resolver loop of `getConf` over the case list. -/
def getConfCases (getwd : String) :
    List ScenarioItem → Option (List (String × String)) × String → List ScenarioItem
  | [], _ => []
  | s :: rest, st =>
      let p := getConfStep getwd s st
      p.1 :: getConfCases getwd rest p.2

/-- `suitConfig.getConf` after a successful YAML unmarshal (a failed
unmarshal aborts the process before any scenario runs and is not
modelled). `getwd` is `os.Getwd()`, `override` the package-level `workdir`
flag value; `envs` starts nil and `wdir` starts at the override when one
is set, else at `getwd`. -/
def suitConfig.getConf (c : suitConfig) (getwd override : String) : suitConfig :=
  let wdir0 := if override ≠ "" then override else getwd
  { c with Cases := getConfCases getwd c.Cases (none, wdir0) }

/-- `RunBash` invoked on index `i` of the case list (Go dereferences
`c.Cases[i]`, panicking when `i` is out of range: `none`). Returns the
updated list and the one-element trace of the invoked index. -/
def runBashAt (environ : List (String × String)) (wd : String)
    (oracle : Nat → ScriptOutcome) (cases : List ScenarioItem) (i : Int) :
    Option (List ScenarioItem × List Nat) :=
  if h : 0 ≤ i ∧ i.toNat < cases.length then
    some (cases.set i.toNat ((cases.get ⟨i.toNat, h.2⟩).RunBash environ wd (oracle i.toNat)).1,
      [i.toNat])
  else
    none

/-- The before/after hook loops of `exec`: look each name up with
`getIdByName` and invoke `RunBash` on the resulting index. -/
def runHooks (environ : List (String × String)) (wd : String)
    (oracle : Nat → ScriptOutcome) :
    List String → List ScenarioItem → Option (List ScenarioItem × List Nat)
  | [], cases => some (cases, [])
  | name :: rest, cases =>
      match runBashAt environ wd oracle cases (getIdByNameL cases name) with
      | none => none
      | some (cases1, t1) =>
          match runHooks environ wd oracle rest cases1 with
          | none => none
          | some (cases2, t2) => some (cases2, t1 ++ t2)

/-- `suitConfig.exec` on the case list: when the scenario at `item` has a
non-empty script, run its before hooks, its own script, then its after
hooks; otherwise do nothing at all. The returned trace lists the indices
on which `RunBash` was invoked, in order. -/
def execL (environ : List (String × String)) (wd : String)
    (oracle : Nat → ScriptOutcome) (cases : List ScenarioItem) (item : Nat) :
    Option (List ScenarioItem × List Nat) :=
  match cases[item]? with
  | none => none
  | some tc =>
      if tc.Script ≠ "" then
        match runHooks environ wd oracle tc.Before cases with
        | none => none
        | some (cases1, t1) =>
            match runBashAt environ wd oracle cases1 (item : Int) with
            | none => none
            | some (cases2, t2) =>
                match runHooks environ wd oracle tc.After cases2 with
                | none => none
                | some (cases3, t3) => some (cases3, t1 ++ t2 ++ t3)
      else
        some (cases, [])

def suitConfig.exec (c : suitConfig) (environ : List (String × String)) (wd : String)
    (oracle : Nat → ScriptOutcome) (item : Nat) :
    Option (List ScenarioItem × List Nat) :=
  execL environ wd oracle c.Cases item

/-- The indices `main` actually executes: the loop over `getScenarioIds`
runs only under the guard `getScenarioCount() > 0`. -/
def executedIds (c : suitConfig) : List Nat :=
  if c.getScenarioCount > 0 then c.getScenarioIds else []

/-- The displayable non-skipped scenarios of a suite (the population the
spec's scoring algorithm ranges over). -/
def displayed (c : suitConfig) : List ScenarioItem :=
  c.Cases.filter fun x => !x.Skip && x.CanShow

/-- Effective value of key `k` in an environment slice handed to
`exec.Cmd.Env`: of duplicate keys only the last value is used. -/
def lookupLast (env : List (String × String)) (k : String) : Option String :=
  ((env.filter fun p => p.1 == k).getLast?).map fun p => p.2

/-- One step of the running inherited environment of the resolver: a
scenario that declares its own environment replaces the running default. -/
def envStep (e : Option (List (String × String))) (s : ScenarioItem) :
    Option (List (String × String)) :=
  s.GlobalEnv.elim e some

/-- One step of the running inherited working directory of the resolver. -/
def wdStep (w : String) (s : ScenarioItem) : String :=
  if s.Workdir = "" then w else s.Workdir

/-- Concrete fixture, the spec's end-to-end scenario B after resolution
and execution: two displayable scenarios of weights 1 and 3, the first
successful, the second failed. -/
def scenarioB : suitConfig :=
  ⟨"s", [{ Case := "a", Weight := 1, Status := "success", canShow := true },
         { Case := "b", Weight := 3, Status := "failed", canShow := true }]⟩

/-- Concrete fixture for the eligibility claims, before resolution: a
displayable anonymous scenario, a named scriptless-label helper, and a
skipped displayable scenario. -/
def rawSuite : suitConfig :=
  ⟨"s", [{ Case := "t", Script := "exit 0" },
         { Name := "helper", Script := "true" },
         { Case := "u", Script := "exit 1", Skip := true }]⟩

/-- Concrete fixture for the inheritance claims: the first scenario
declares an environment and a working directory, the second declares
neither, the third declares only an environment. -/
def chainSuite : suitConfig :=
  ⟨"s", [{ Case := "a", Script := "x", GlobalEnv := some [("A", "1")], Workdir := "/w1" },
         { Case := "b", Script := "y" },
         { Case := "c", Script := "z", GlobalEnv := some [("B", "2")] }]⟩

/-- Concrete fixture for the hook-ordering claim: a skipped named helper,
a displayable scenario referencing it before and another helper after. -/
def hookCases : List ScenarioItem :=
  [{ Name := "setup", Script := "s", Skip := true },
   { Case := "t", Script := "m", Before := ["setup"], After := ["cleanup"] },
   { Name := "cleanup", Script := "c" }]

/-! Theorems. -/

/-- Closed form of one resolver step: which fields it rewrites and how the
running state evolves. -/
theorem getConfStep_eq (getwd : String) (s : ScenarioItem)
    (st : Option (List (String × String)) × String) :
    getConfStep getwd s st =
      ({ s with
          GlobalEnv := s.GlobalEnv.elim st.1 some,
          Workdir := if s.Workdir = "" then st.2 else s.Workdir,
          canShow := if s.Case = "" then s.canShow else true,
          canRun := if s.Case = "" then (if s.Name = "" then true else s.canRun) else true,
          Weight := if (if s.Case = "" then s.canShow else true) = true then
                      (if s.Weight = 0 then 1 else s.Weight)
                    else s.Weight },
        (s.GlobalEnv.elim st.1 some,
         if s.Workdir = "" then (if st.2 = "" then getwd else st.2) else s.Workdir)) := by
  obtain ⟨n, ca, ge, wdr, sc, sk, w, b, a, stt, r, sd, d, cs, cr⟩ := s
  unfold getConfStep
  cases ge <;>
    by_cases hW : wdr = "" <;>
      by_cases hC : ca = "" <;>
        by_cases hN : n = "" <;>
          simp [hW, hC, hN, ScenarioItem.CanShow, Option.elim] <;>
            (try split) <;> (try split) <;> simp_all

theorem getConfCases_length (getwd : String) :
    ∀ (cases : List ScenarioItem) (st),
      (getConfCases getwd cases st).length = cases.length := by
  intro cases
  induction cases with
  | nil => intro st; rfl
  | cons s rest ih => intro st; simp [getConfCases, ih]

/-- Any field of a resolved scenario that one resolver step computes from
the scenario alone (independently of the running state) can be read off
pointwise through the whole resolver loop. -/
theorem getConfCases_proj {β : Type} (getwd : String) (f : ScenarioItem → β)
    (g : ScenarioItem → β) (hf : ∀ s st, f (getConfStep getwd s st).1 = g s) :
    ∀ (cases : List ScenarioItem) (st) (i : Nat),
      ((getConfCases getwd cases st)[i]?).map f = (cases[i]?).map g := by
  intro cases
  induction cases with
  | nil => intro st i; rfl
  | cons s rest ih =>
      intro st i
      cases i with
      | zero => simp [getConfCases, hf]
      | succ n => simp [getConfCases, ih]

theorem optionTest {α : Type} (o : Option α) (f : α → Bool) :
    ((o.map f).getD false = true) ↔ ∃ x, o = some x ∧ f x = true := by
  cases o <;> simp

/-- C2: the claim says the subprocess working directory is the scenario's
resolved `Workdir`; in the code `RunBash` assigns the package-level
`workdir` flag value to `script.Dir` and never reads the resolved
per-scenario `Workdir`. Concretely: a scenario resolving to `Workdir`
`"/a"` run with no CLI override yields a command whose `Dir` is `""` (the
process working directory), not `"/a"`. -/
theorem runBash_ignores_resolved_workdir :
    (((suitConfig.getConf ⟨"s", [{ Case := "t", Script := "exit 0", Workdir := "/a" }]⟩
          "/cwd" "").Cases[0]?).map fun s =>
        (s.Workdir, ((s.RunBash [] "" ⟨"", none⟩).2).map BashCmd.Dir))
      = some ("/a", some "") := by decide

/-- C3: on a suite whose only scenario is skipped (no displayable
non-skipped scenario) `signOff` computes the scoring denominator `max = 0`
and then evaluates `100 * float64(sum) / float64(max)`, a float `NaN`;
no "not applicable" report exists, and the summary line is not printed at
all (`printSummary` is guarded by `all > 0`). -/
theorem signOff_zero_denominator_unguarded :
    ((suitConfig.getConf ⟨"s", [{ Case := "t", Script := "exit 0", Skip := true }]⟩
        "/cwd" "").signOff.max = 0)
    ∧ printSummaryEmits
        ((suitConfig.getConf ⟨"s", [{ Case := "t", Script := "exit 0", Skip := true }]⟩
          "/cwd" "").signOff) = false := by decide

/-- C8 counterexample: a suite whose only scenario is anonymous (no name,
no label) makes that scenario eligible — `getScenarioIds` selects index 0
— yet `main` executes nothing, because its execution loop is guarded by
`getScenarioCount() > 0` and the displayable count is 0. -/
theorem anonymous_only_suite_not_executed :
    ((suitConfig.getConf ⟨"s", [{ Script := "exit 0" }]⟩ "/cwd" "").getScenarioIds = [0])
    ∧ executedIds (suitConfig.getConf ⟨"s", [{ Script := "exit 0" }]⟩ "/cwd" "") = [] := by
  decide

/-- C6: a scenario with an empty script body is a complete no-op: `RunBash`
returns it unchanged (every runtime field keeps its prior value, the
status never leaves unrun) and issues no command, and `exec` leaves the
whole suite untouched with an empty invocation trace — in particular none
of its before/after hooks is ever invoked. -/
theorem emptyScript_noop (environ : List (String × String)) (wd : String)
    (oracle : Nat → ScriptOutcome) (outcome : ScriptOutcome)
    (cases : List ScenarioItem) (item : Nat) (tc : ScenarioItem)
    (h1 : cases[item]? = some tc) (h2 : tc.Script = "") :
    tc.RunBash environ wd outcome = (tc, none)
    ∧ execL environ wd oracle cases item = some (cases, []) := by
  constructor
  · simp [ScenarioItem.RunBash, h2]
  · simp [execL, h1, h2]

theorem emptyScript_noop_witness :
    ([({ Case := "t", Before := ["x"], After := ["y"] } : ScenarioItem)][0]?
        = some { Case := "t", Before := ["x"], After := ["y"] })
    ∧ ({ Case := "t", Before := ["x"], After := ["y"] } : ScenarioItem).Script = ""
    ∧ (({ Case := "t", Before := ["x"], After := ["y"] } : ScenarioItem).RunBash
          [] "" ⟨"out", some "boom"⟩
        = ({ Case := "t", Before := ["x"], After := ["y"] }, none)
      ∧ execL [] "" (fun _ => ⟨"out", some "boom"⟩)
          [{ Case := "t", Before := ["x"], After := ["y"] }] 0
        = some ([{ Case := "t", Before := ["x"], After := ["y"] }], [])) :=
  ⟨by decide, by decide,
    emptyScript_noop [] "" (fun _ => ⟨"out", some "boom"⟩) ⟨"out", some "boom"⟩
      [{ Case := "t", Before := ["x"], After := ["y"] }] 0
      { Case := "t", Before := ["x"], After := ["y"] } (by decide) (by decide)⟩

theorem getIdByNameAux_notFound (name : String) :
    ∀ (l : List ScenarioItem) (k : Nat),
      (∀ s ∈ l, s.Name ≠ name) → getIdByNameAux name k l = -1 := by
  intro l
  induction l with
  | nil => intro k _; rfl
  | cons s rest ih =>
      intro k h
      have hs : s.Name ≠ name := h s (by simp)
      simp only [getIdByNameAux, if_neg hs]
      exact ih (k + 1) fun t ht => h t (by simp [ht])

/-- C9: a before/after helper name matching no scenario's `Name` makes
`getIdByName` return `-1`, and invoking `RunBash` on index `-1` during the
runner phase is an out-of-bounds access (`none` models the Go slice
panic); resolution (`getConf`) performs no name checking at all, so the
failure surfaces only at run time. -/
theorem unresolved_name_lookup (c : suitConfig) (name : String)
    (h : ∀ s ∈ c.Cases, s.Name ≠ name) :
    c.getIdByName name = -1
    ∧ ∀ (environ : List (String × String)) (wd : String) (oracle : Nat → ScriptOutcome),
        runBashAt environ wd oracle c.Cases (c.getIdByName name) = none := by
  have h1 : c.getIdByName name = -1 := getIdByNameAux_notFound name c.Cases 0 h
  refine ⟨h1, ?_⟩
  intro environ wd oracle
  rw [h1]
  unfold runBashAt
  rw [dif_neg]
  intro hcon
  have := hcon.1
  norm_num at this

theorem unresolved_name_lookup_witness :
    (∀ s ∈ (⟨"s", [{ Name := "a" }]⟩ : suitConfig).Cases, s.Name ≠ "setup")
    ∧ (⟨"s", [{ Name := "a" }]⟩ : suitConfig).getIdByName "setup" = -1
    ∧ runBashAt [] "" (fun _ => ⟨"", none⟩)
        (⟨"s", [{ Name := "a" }]⟩ : suitConfig).Cases
        ((⟨"s", [{ Name := "a" }]⟩ : suitConfig).getIdByName "setup") = none :=
  ⟨by decide,
    (unresolved_name_lookup ⟨"s", [{ Name := "a" }]⟩ "setup" (by decide)).1,
    (unresolved_name_lookup ⟨"s", [{ Name := "a" }]⟩ "setup" (by decide)).2 [] ""
      (fun _ => ⟨"", none⟩)⟩

/-- C5: when the script is non-empty the issued command's environment is
the full process environment `environ` with the scenario's resolved
mapping `g` appended; under the last-entry-wins reading of `exec.Cmd.Env`,
a key of `g` resolves to `g`'s value and every other key keeps its
process value. -/
theorem runBash_env_overlay (environ : List (String × String)) (wd : String)
    (outcome : ScriptOutcome) (s : ScenarioItem) (g : List (String × String)) (k : String)
    (hs : s.Script ≠ "") (hg : s.GlobalEnv = some g) :
    ∃ cmd, (s.RunBash environ wd outcome).2 = some cmd
      ∧ cmd.Env = environ ++ g
      ∧ (k ∈ g.map Prod.fst → lookupLast cmd.Env k = lookupLast g k)
      ∧ (k ∉ g.map Prod.fst → lookupLast cmd.Env k = lookupLast environ k) := by
  refine ⟨{ Dir := wd, Env := environ ++ g }, ?_, rfl, ?_, ?_⟩
  · simp [ScenarioItem.RunBash, hs, hg, envPairs]
  · intro hk
    unfold lookupLast
    rw [List.filter_append, List.getLast?_append]
    have hne : (g.filter fun p => p.1 == k) ≠ [] := by
      obtain ⟨p, hp, hpk⟩ := List.mem_map.mp hk
      intro hnil
      rw [List.filter_eq_nil_iff] at hnil
      exact hnil p hp (by simp [hpk])
    obtain ⟨x, hx⟩ : ∃ x, (List.filter (fun p => p.1 == k) g).getLast? = some x := by
      cases he : (List.filter (fun p => p.1 == k) g).getLast? with
      | none => exact absurd (List.getLast?_eq_none_iff.mp he) hne
      | some x => exact ⟨x, rfl⟩
    rw [hx]
    rfl
  · intro hk
    have hnil : (g.filter fun p => p.1 == k) = [] := by
      rw [List.filter_eq_nil_iff]
      intro p hp hpk
      exact hk (List.mem_map.mpr ⟨p, hp, by simpa using hpk⟩)
    unfold lookupLast
    rw [List.filter_append, hnil, List.append_nil]

theorem runBash_env_overlay_witness :
    (({ Case := "t", Script := "exit 0", GlobalEnv := some [("HOME", "/x")] } : ScenarioItem).Script ≠ ""
    ∧ ({ Case := "t", Script := "exit 0", GlobalEnv := some [("HOME", "/x")] } : ScenarioItem).GlobalEnv
        = some [("HOME", "/x")])
    ∧ ∃ cmd,
        (({ Case := "t", Script := "exit 0", GlobalEnv := some [("HOME", "/x")] } : ScenarioItem).RunBash
            [("PATH", "/bin"), ("HOME", "/h")] "" ⟨"", none⟩).2 = some cmd
        ∧ cmd.Env = [("PATH", "/bin"), ("HOME", "/h")] ++ [("HOME", "/x")]
        ∧ ("HOME" ∈ ([("HOME", "/x")] : List (String × String)).map Prod.fst →
            lookupLast cmd.Env "HOME" = lookupLast [("HOME", "/x")] "HOME")
        ∧ ("HOME" ∉ ([("HOME", "/x")] : List (String × String)).map Prod.fst →
            lookupLast cmd.Env "HOME" = lookupLast [("PATH", "/bin"), ("HOME", "/h")] "HOME") :=
  ⟨⟨by decide, by decide⟩,
    runBash_env_overlay [("PATH", "/bin"), ("HOME", "/h")] "" ⟨"", none⟩
      { Case := "t", Script := "exit 0", GlobalEnv := some [("HOME", "/x")] }
      [("HOME", "/x")] "HOME" (by decide) (by decide)⟩

theorem filterMapCongr {α β : Type} :
    ∀ (l : List α) (f g : α → Option β), (∀ a ∈ l, f a = g a) →
      l.filterMap f = l.filterMap g := by
  intro l
  induction l with
  | nil => intro f g _; rfl
  | cons a l ih =>
      intro f g h
      rw [List.filterMap_cons, List.filterMap_cons, h a (by simp),
        ih f g fun x hx => h x (by simp [hx])]

/-- Selecting indices by a predicate on the element and then dereferencing
them is filtering the list by that predicate. -/
theorem range_filter_filterMap {α : Type} (l : List α) (p : α → Bool) :
    ((List.range l.length).filter fun i => ((l[i]?).map p).getD false).filterMap
        (fun i => l[i]?)
      = l.filter p := by
  induction l using List.reverseRecOn with
  | nil => rfl
  | append_singleton l a ih =>
      have hlen : (l ++ [a]).length = l.length + 1 := by simp
      rw [hlen, List.range_succ, List.filter_append, List.filterMap_append]
      have h1 : (List.range l.length).filter
            (fun i => (((l ++ [a])[i]?).map p).getD false)
          = (List.range l.length).filter fun i => ((l[i]?).map p).getD false := by
        refine List.filter_congr fun i hi => ?_
        rw [List.getElem?_append_left (List.mem_range.mp hi)]
      have h2 : ((List.range l.length).filter fun i => ((l[i]?).map p).getD false).filterMap
            (fun i => (l ++ [a])[i]?)
          = ((List.range l.length).filter fun i => ((l[i]?).map p).getD false).filterMap
            (fun i => l[i]?) := by
        refine filterMapCongr _ _ _ fun i hi => ?_
        have : i < l.length := List.mem_range.mp (List.mem_filter.mp hi).1
        exact List.getElem?_append_left this
      rw [h1, h2, ih, List.filter_append]
      cases hpa : p a with
      | true =>
          simp [List.filter_cons, hpa, List.getElem?_concat_length, List.filterMap_cons]
      | false =>
          simp [List.filter_cons, hpa, List.getElem?_concat_length, List.filterMap_cons]

theorem foldl_signOffStep (c : suitConfig) :
    ∀ (ids : List Nat) (a : SignOffAcc),
      List.foldl (signOffStep c) a ids
        = List.foldl signOffStepE a (ids.filterMap fun i => c.Cases[i]?) := by
  intro ids
  induction ids with
  | nil => intro a; rfl
  | cons i ids ih =>
      intro a
      cases h : c.Cases[i]? with
      | none => simp [signOffStep, h, ih]
      | some x => simp [signOffStep, h, ih]

theorem foldl_signOffStepE_max :
    ∀ (l : List ScenarioItem) (a : SignOffAcc),
      (List.foldl signOffStepE a l).max
        = a.max + ((l.filter fun x => x.CanShow).map ScenarioItem.Weight).sum := by
  intro l
  induction l with
  | nil => intro a; simp
  | cons s l ih =>
      intro a
      cases hc : s.CanShow with
      | false => simp [signOffStepE, hc, ih, List.filter_cons]
      | true =>
          cases hs : s.IsSuccessful with
          | true => simp [signOffStepE, hc, hs, ih, List.filter_cons]; omega
          | false => simp [signOffStepE, hc, hs, ih, List.filter_cons]; omega

theorem foldl_signOffStepE_all :
    ∀ (l : List ScenarioItem) (a : SignOffAcc),
      (List.foldl signOffStepE a l).all
        = a.all + (l.filter fun x => x.CanShow).length := by
  intro l
  induction l with
  | nil => intro a; simp
  | cons s l ih =>
      intro a
      cases hc : s.CanShow with
      | false => simp [signOffStepE, hc, ih, List.filter_cons]
      | true =>
          cases hs : s.IsSuccessful with
          | true => simp [signOffStepE, hc, hs, ih, List.filter_cons]; omega
          | false => simp [signOffStepE, hc, hs, ih, List.filter_cons]; omega

theorem foldl_signOffStepE_sum :
    ∀ (l : List ScenarioItem) (a : SignOffAcc),
      (List.foldl signOffStepE a l).sum
        = a.sum + (((l.filter fun x => x.CanShow).filter fun x => x.IsSuccessful).map
            ScenarioItem.Weight).sum := by
  intro l
  induction l with
  | nil => intro a; simp
  | cons s l ih =>
      intro a
      cases hc : s.CanShow with
      | false => simp [signOffStepE, hc, ih, List.filter_cons]
      | true =>
          cases hs : s.IsSuccessful with
          | true => simp [signOffStepE, hc, hs, ih, List.filter_cons]; omega
          | false => simp [signOffStepE, hc, hs, ih, List.filter_cons]

theorem foldl_signOffStepE_failed :
    ∀ (l : List ScenarioItem) (a : SignOffAcc),
      (List.foldl signOffStepE a l).failed
        = a.failed + ((l.filter fun x => x.CanShow).filter fun x => !x.IsSuccessful).length := by
  intro l
  induction l with
  | nil => intro a; simp
  | cons s l ih =>
      intro a
      cases hc : s.CanShow with
      | false => simp [signOffStepE, hc, ih, List.filter_cons]
      | true =>
          cases hs : s.IsSuccessful with
          | true => simp [signOffStepE, hc, hs, ih, List.filter_cons]
          | false => simp [signOffStepE, hc, hs, ih, List.filter_cons]; omega

/-- The case list that `signOff` effectively aggregates over is exactly
the displayable non-skipped scenarios. -/
theorem signOff_population (c : suitConfig) :
    (c.getScenarioIds.filterMap fun i => c.Cases[i]?).filter (fun x => x.CanShow)
      = displayed c := by
  unfold suitConfig.getScenarioIds displayed
  rw [range_filter_filterMap c.Cases fun item => !item.Skip && (item.canShow || item.canRun)]
  rw [List.filter_filter]
  refine List.filter_congr fun x _ => ?_
  simp only [ScenarioItem.CanShow]
  cases x.canShow <;> cases x.Skip <;> cases x.canRun <;> rfl

/-- The aggregates of `signOff`, characterized over the displayable
non-skipped scenarios of the suite. -/
theorem signOff_spec (c : suitConfig) :
    c.signOff.max = ((displayed c).map ScenarioItem.Weight).sum
    ∧ c.signOff.sum
        = (((displayed c).filter fun x => x.IsSuccessful).map ScenarioItem.Weight).sum
    ∧ c.signOff.all = (displayed c).length
    ∧ c.signOff.failed = ((displayed c).filter fun x => !x.IsSuccessful).length
    ∧ c.signOff.successfull
        = ((displayed c).length : Int)
          - (((displayed c).filter fun x => !x.IsSuccessful).length : Int) := by
  have hpop := signOff_population c
  have hdef :
      c.signOff
        = { sum := (List.foldl (signOffStep c) {} c.getScenarioIds).sum,
            max := (List.foldl (signOffStep c) {} c.getScenarioIds).max,
            failed := (List.foldl (signOffStep c) {} c.getScenarioIds).failed,
            all := (List.foldl (signOffStep c) {} c.getScenarioIds).all,
            successfull := ((List.foldl (signOffStep c) {} c.getScenarioIds).all : Int)
              - ((List.foldl (signOffStep c) {} c.getScenarioIds).failed : Int) } := rfl
  rw [hdef, foldl_signOffStep]
  refine ⟨?_, ?_, ?_, ?_, ?_⟩ <;> dsimp only
  · rw [foldl_signOffStepE_max]
    simp [hpop]
  · rw [foldl_signOffStepE_sum]
    simp [hpop]
  · rw [foldl_signOffStepE_all]
    simp [hpop]
  · rw [foldl_signOffStepE_failed]
    simp [hpop]
  · rw [foldl_signOffStepE_all, foldl_signOffStepE_failed]
    simp [hpop]

/-- C1: over the displayable non-skipped scenarios, `signOff` computes
`max` as the sum of their weights, `sum` as the sum of weights of the
successful ones, the reported successful count as the displayable count
minus the failed count, and the score as `100 * sum / max` (read in `ℚ`;
the `max = 0` case is float `NaN` in the source and is treated under C3). -/
theorem signOff_scoring (c : suitConfig)
    (hmax : ((displayed c).map ScenarioItem.Weight).sum ≠ 0) :
    c.signOff.max = ((displayed c).map ScenarioItem.Weight).sum
    ∧ c.signOff.sum
        = (((displayed c).filter fun x => x.IsSuccessful).map ScenarioItem.Weight).sum
    ∧ c.signOff.all = (displayed c).length
    ∧ c.signOff.successfull = (c.signOff.all : Int) - (c.signOff.failed : Int)
    ∧ c.score
        = 100 * ((((displayed c).filter fun x => x.IsSuccessful).map ScenarioItem.Weight).sum : ℚ)
          / (((displayed c).map ScenarioItem.Weight).sum : ℚ) := by
  obtain ⟨h1, h2, h3, h4, h5⟩ := signOff_spec c
  refine ⟨h1, h2, h3, ?_, ?_⟩
  · rw [h5, h3, h4]
  · unfold suitConfig.score
    rw [h1, h2]

theorem signOff_scoring_witness :
    ((displayed scenarioB).map ScenarioItem.Weight).sum ≠ 0
    ∧ (scenarioB.score = 25
      ∧ scenarioB.signOff.successfull = 1
      ∧ scenarioB.signOff.failed = 1)
    ∧ scenarioB.signOff.max = ((displayed scenarioB).map ScenarioItem.Weight).sum :=
  ⟨by decide,
    ⟨by
      have h1 : scenarioB.signOff.sum = 1 := by decide
      have h2 : scenarioB.signOff.max = 4 := by decide
      unfold suitConfig.score
      rw [h1, h2]
      norm_num,
     by decide, by decide⟩,
    (signOff_scoring scenarioB (by decide)).1⟩

/-- C10: appending a displayable, non-skipped scenario that never left the
unrun status (`Status = ""`, e.g. an empty-script scenario) to a suite
increments the failed count and adds its weight to the scoring denominator
`max` but contributes nothing to the numerator `sum`. -/
theorem unrun_scenario_counts_failed (c : suitConfig) (x : ScenarioItem)
    (hshow : x.canShow = true) (hskip : x.Skip = false) (hstat : x.Status = "") :
    (suitConfig.mk c.Name (c.Cases ++ [x])).signOff.failed = c.signOff.failed + 1
    ∧ (suitConfig.mk c.Name (c.Cases ++ [x])).signOff.max = c.signOff.max + x.Weight
    ∧ (suitConfig.mk c.Name (c.Cases ++ [x])).signOff.sum = c.signOff.sum := by
  have hx : (!x.Skip && x.CanShow) = true := by
    simp [ScenarioItem.CanShow, hshow, hskip]
  have hsx : x.IsSuccessful = false := by
    simp [ScenarioItem.IsSuccessful, hstat]
  have hdisp : displayed (suitConfig.mk c.Name (c.Cases ++ [x])) = displayed c ++ [x] := by
    unfold displayed
    rw [List.filter_append]
    simp [List.filter_cons, hx]
  obtain ⟨hmax', hsum', _, hfail', _⟩ := signOff_spec (suitConfig.mk c.Name (c.Cases ++ [x]))
  obtain ⟨hmax, hsum, _, hfail, _⟩ := signOff_spec c
  refine ⟨?_, ?_, ?_⟩
  · rw [hfail', hfail, hdisp, List.filter_append]
    simp [List.filter_cons, hsx]
  · rw [hmax', hmax, hdisp]
    simp
  · rw [hsum', hsum, hdisp, List.filter_append]
    simp [List.filter_cons, hsx]

theorem unrun_scenario_counts_failed_witness :
    (({ Case := "u", Weight := 2, canShow := true } : ScenarioItem).canShow = true
    ∧ ({ Case := "u", Weight := 2, canShow := true } : ScenarioItem).Skip = false
    ∧ ({ Case := "u", Weight := 2, canShow := true } : ScenarioItem).Status = "")
    ∧ ((suitConfig.mk scenarioB.Name
          (scenarioB.Cases ++ [{ Case := "u", Weight := 2, canShow := true }])).signOff.failed
        = scenarioB.signOff.failed + 1
      ∧ (suitConfig.mk scenarioB.Name
          (scenarioB.Cases ++ [{ Case := "u", Weight := 2, canShow := true }])).signOff.max
        = scenarioB.signOff.max + ({ Case := "u", Weight := 2, canShow := true } : ScenarioItem).Weight
      ∧ (suitConfig.mk scenarioB.Name
          (scenarioB.Cases ++ [{ Case := "u", Weight := 2, canShow := true }])).signOff.sum
        = scenarioB.signOff.sum) :=
  ⟨⟨by decide, by decide, by decide⟩,
    unrun_scenario_counts_failed scenarioB { Case := "u", Weight := 2, canShow := true }
      (by decide) (by decide) (by decide)⟩

theorem getConfCases_selection (getwd : String) :
    ∀ (cases : List ScenarioItem) (st) (i : Nat),
      ((getConfCases getwd cases st)[i]?).map
          (fun item => !item.Skip && (item.canShow || item.canRun))
        = (cases[i]?).map fun s =>
            !s.Skip && ((if s.Case = "" then s.canShow else true)
              || (if s.Case = "" then (if s.Name = "" then true else s.canRun) else true)) :=
  getConfCases_proj getwd _ _ (by intro s st; rw [getConfStep_eq])

theorem getConf_Cases (c : suitConfig) (getwd override : String) :
    (c.getConf getwd override).Cases
      = getConfCases getwd c.Cases (none, if override ≠ "" then override else getwd) := rfl

/-- C8 (amended): after resolution of a suite loaded from YAML (whose
unexported flags start false), an index is selected by `getScenarioIds`
iff its scenario has `Skip` false and a non-empty label or no name; the
selected indices are strictly ascending (each eligible scenario at most
once, in declaration order); and whenever the displayable count is
positive `main` executes exactly the selected indices in that order.
(The unamended claim fails when the displayable count is zero: see the
counterexample `anonymous_only_suite_not_executed`.) -/
theorem getScenarioIds_selection (c : suitConfig) (getwd override : String)
    (hflags : ∀ s ∈ c.Cases, s.canShow = false ∧ s.canRun = false) :
    (∀ i : Nat, i ∈ (c.getConf getwd override).getScenarioIds ↔
        ∃ s, c.Cases[i]? = some s ∧ s.Skip = false ∧ (s.Case ≠ "" ∨ s.Name = ""))
    ∧ (c.getConf getwd override).getScenarioIds.Pairwise (· < ·)
    ∧ (0 < (c.getConf getwd override).getScenarioCount →
        executedIds (c.getConf getwd override) = (c.getConf getwd override).getScenarioIds) := by
  refine ⟨?_, ?_, ?_⟩
  · intro i
    unfold suitConfig.getScenarioIds
    rw [List.mem_filter, List.mem_range]
    have hsel : (((c.getConf getwd override).Cases[i]?).map
          (fun item => !item.Skip && (item.canShow || item.canRun))).getD false
        = ((c.Cases[i]?).map fun s =>
            !s.Skip && ((if s.Case = "" then s.canShow else true)
              || (if s.Case = "" then (if s.Name = "" then true else s.canRun) else true))).getD
          false := by
      rw [getConf_Cases, getConfCases_selection]
    rw [hsel, optionTest]
    have hlen : (c.getConf getwd override).Cases.length = c.Cases.length := by
      rw [getConf_Cases]
      exact getConfCases_length getwd c.Cases _
    constructor
    · rintro ⟨-, s, hgs, hs⟩
      obtain ⟨h1, h2⟩ := hflags s (List.getElem?_mem hgs)
      refine ⟨s, hgs, ?_⟩
      by_cases hk : s.Skip <;> by_cases hc : s.Case = "" <;> by_cases hn : s.Name = "" <;>
        simp [h1, h2, hk, hc, hn] at hs ⊢
    · rintro ⟨s, hgs, hsk, hcn⟩
      obtain ⟨h1, h2⟩ := hflags s (List.getElem?_mem hgs)
      have hi : i < c.Cases.length := (List.getElem?_eq_some.mp hgs).1
      refine ⟨by rw [hlen]; exact hi, s, hgs, ?_⟩
      by_cases hc : s.Case = "" <;> by_cases hn : s.Name = "" <;>
        simp [h1, h2, hsk, hc, hn] at hcn ⊢
  · exact List.Pairwise.filter _ (List.pairwise_lt_range _)
  · intro h
    simp [executedIds, h]

theorem getScenarioIds_selection_witness :
    (∀ s ∈ rawSuite.Cases, s.canShow = false ∧ s.canRun = false)
    ∧ ((0 ∈ (rawSuite.getConf "/cwd" "").getScenarioIds ↔
        ∃ s, rawSuite.Cases[0]? = some s ∧ s.Skip = false ∧ (s.Case ≠ "" ∨ s.Name = ""))
      ∧ (1 ∈ (rawSuite.getConf "/cwd" "").getScenarioIds ↔
        ∃ s, rawSuite.Cases[1]? = some s ∧ s.Skip = false ∧ (s.Case ≠ "" ∨ s.Name = "")))
    ∧ (rawSuite.getConf "/cwd" "").getScenarioIds.Pairwise (· < ·)
    ∧ (0 < (rawSuite.getConf "/cwd" "").getScenarioCount →
        executedIds (rawSuite.getConf "/cwd" "") = (rawSuite.getConf "/cwd" "").getScenarioIds) :=
  ⟨by decide,
    ⟨(getScenarioIds_selection rawSuite "/cwd" "" (by decide)).1 0,
     (getScenarioIds_selection rawSuite "/cwd" "" (by decide)).1 1⟩,
    (getScenarioIds_selection rawSuite "/cwd" "" (by decide)).2.1,
    (getScenarioIds_selection rawSuite "/cwd" "" (by decide)).2.2⟩

theorem getConfCases_env (getwd : String) :
    ∀ (cases : List ScenarioItem) (st : Option (List (String × String)) × String) (i : Nat),
      ((getConfCases getwd cases st)[i]?).map ScenarioItem.GlobalEnv
        = (cases[i]?).map fun s =>
            s.GlobalEnv.elim (List.foldl envStep st.1 (cases.take i)) some := by
  intro cases
  induction cases with
  | nil => intro st i; rfl
  | cons s rest ih =>
      intro st i
      cases i with
      | zero => simp [getConfCases, getConfStep_eq]
      | succ n =>
          have hih := ih (getConfStep getwd s st).2 n
          have h1 : ((getConfStep getwd s st).2).1 = envStep st.1 s := by
            rw [getConfStep_eq]
            rfl
          simp only [getConfCases, List.getElem?_cons_succ, List.take_succ_cons,
            List.foldl_cons]
          rw [hih, h1]

theorem getConfCases_wdir (getwd : String) :
    ∀ (cases : List ScenarioItem) (st : Option (List (String × String)) × String) (i : Nat),
      st.2 ≠ "" →
      ((getConfCases getwd cases st)[i]?).map ScenarioItem.Workdir
        = (cases[i]?).map fun s =>
            if s.Workdir = "" then List.foldl wdStep st.2 (cases.take i) else s.Workdir := by
  intro cases
  induction cases with
  | nil => intro st i _; rfl
  | cons s rest ih =>
      intro st i h
      have h2 : ((getConfStep getwd s st).2).2 = wdStep st.2 s := by
        rw [getConfStep_eq]
        simp [wdStep, h]
      have h3 : wdStep st.2 s ≠ "" := by
        by_cases hw : s.Workdir = "" <;> simp [wdStep, hw, h]
      cases i with
      | zero => simp [getConfCases, getConfStep_eq]
      | succ n =>
          have hih := ih (getConfStep getwd s st).2 n (by rw [h2]; exact h3)
          simp only [getConfCases, List.getElem?_cons_succ, List.take_succ_cons,
            List.foldl_cons]
          rw [hih, h2]

theorem foldl_envStep_eq :
    ∀ (l : List ScenarioItem) (e : Option (List (String × String))),
      List.foldl envStep e l = ((l.filterMap ScenarioItem.GlobalEnv).getLast?).elim e some := by
  intro l
  induction l using List.reverseRecOn with
  | nil => intro e; rfl
  | append_singleton l a ih =>
      intro e
      rw [List.foldl_append, List.filterMap_append, ih]
      cases hg : a.GlobalEnv with
      | none => simp [envStep, hg]
      | some g => simp [envStep, hg, List.getLast?_concat]

theorem foldl_wdStep_eq :
    ∀ (l : List ScenarioItem) (w : String),
      List.foldl wdStep w l
        = (((l.map ScenarioItem.Workdir).filter fun x => !(x == "")).getLast?).getD w := by
  intro l
  induction l using List.reverseRecOn with
  | nil => intro w; rfl
  | append_singleton l a ih =>
      intro w
      rw [List.foldl_append, List.map_append, List.filter_append, ih]
      by_cases hw : a.Workdir = "" <;> simp [wdStep, hw, List.getLast?_concat]

/-- C4: after resolution, scenario `i`'s environment is its own mapping if
it declared one, otherwise the most recently declared mapping among the
scenarios before it, otherwise nil (empty); its working directory is its
own if non-empty, otherwise the most recent non-empty one declared before
it, otherwise the initial directory (the CLI override when set, else the
process working directory `getwd`, assumed non-empty as `os.Getwd` returns
an absolute path). -/
theorem getConf_inheritance (c : suitConfig) (getwd override : String) (i : Nat)
    (hg : getwd ≠ "") :
    ((c.getConf getwd override).Cases[i]?).map ScenarioItem.GlobalEnv
      = (c.Cases[i]?).map (fun s =>
          s.GlobalEnv.elim ((c.Cases.take i).filterMap ScenarioItem.GlobalEnv).getLast? some)
    ∧ ((c.getConf getwd override).Cases[i]?).map ScenarioItem.Workdir
      = (c.Cases[i]?).map (fun s =>
          if s.Workdir = "" then
            ((((c.Cases.take i).map ScenarioItem.Workdir).filter fun x => !(x == "")).getLast?).getD
              (if override = "" then getwd else override)
          else s.Workdir) := by
  have hst : ((none, if override ≠ "" then override else getwd) :
      Option (List (String × String)) × String).2 ≠ "" := by
    by_cases ho : override = "" <;> simp [ho, hg]
  constructor
  · rw [getConf_Cases, getConfCases_env]
    refine congrArg (fun h => Option.map h (c.Cases[i]?)) (funext fun s => ?_)
    rw [foldl_envStep_eq]
    cases ((c.Cases.take i).filterMap ScenarioItem.GlobalEnv).getLast? <;> rfl
  · rw [getConf_Cases, getConfCases_wdir getwd c.Cases _ i hst]
    refine congrArg (fun h => Option.map h (c.Cases[i]?)) (funext fun s => ?_)
    rw [foldl_wdStep_eq]
    by_cases ho : override = "" <;> simp [ho]

theorem getConf_inheritance_witness :
    (("/cwd" : String) ≠ ""
    ∧ ((chainSuite.getConf "/cwd" "").Cases[1]?).map ScenarioItem.GlobalEnv
        = some (some [("A", "1")])
    ∧ ((chainSuite.getConf "/cwd" "").Cases[1]?).map ScenarioItem.Workdir = some "/w1"
    ∧ ((chainSuite.getConf "/cwd" "").Cases[2]?).map ScenarioItem.GlobalEnv
        = some (some [("B", "2")]))
    ∧ ((chainSuite.getConf "/cwd" "").Cases[2]?).map ScenarioItem.Workdir
      = (chainSuite.Cases[2]?).map (fun s =>
          if s.Workdir = "" then
            ((((chainSuite.Cases.take 2).map ScenarioItem.Workdir).filter
                fun x => !(x == "")).getLast?).getD (if "" = "" then "/cwd" else "")
          else s.Workdir) :=
  ⟨⟨by decide, by decide, by decide, by decide⟩,
    (getConf_inheritance chainSuite "/cwd" "" 2 (by decide)).2⟩

theorem runBash_Name (s : ScenarioItem) (environ : List (String × String)) (wd : String)
    (outcome : ScriptOutcome) :
    ((s.RunBash environ wd outcome).1).Name = s.Name := by
  unfold ScenarioItem.RunBash
  split <;> rfl

theorem set_get_self {α : Type} :
    ∀ (l : List α) (n : Nat) (h : n < l.length), l.set n (l.get ⟨n, h⟩) = l := by
  intro l
  induction l with
  | nil => intro n h; simp at h
  | cons a l ih =>
      intro n h
      cases n with
      | zero => rfl
      | succ m =>
          have h' : m < l.length := by simpa using h
          exact congrArg (fun t => a :: t) (ih m h')

/-- A successful `RunBash` invocation at a valid index updates only runtime
fields: in particular the name column of the suite is unchanged. -/
theorem runBashAt_valid (environ : List (String × String)) (wd : String)
    (oracle : Nat → ScriptOutcome) (cases : List ScenarioItem) (n : Nat)
    (h : n < cases.length) :
    ∃ cases2, runBashAt environ wd oracle cases ((n : Nat) : Int) = some (cases2, [n])
      ∧ cases2.map ScenarioItem.Name = cases.map ScenarioItem.Name := by
  have hcond : (0 : Int) ≤ ((n : Nat) : Int) ∧ (((n : Nat) : Int)).toNat < cases.length := by
    constructor
    · exact Int.ofNat_nonneg n
    · simpa using h
  unfold runBashAt
  rw [dif_pos hcond]
  refine ⟨_, rfl, ?_⟩
  rw [List.map_set, runBash_Name]
  have hget : ((cases.get ⟨(((n : Nat) : Int)).toNat, hcond.2⟩)).Name
      = (cases.map ScenarioItem.Name).get ⟨(((n : Nat) : Int)).toNat, by simpa using hcond.2⟩ := by
    simp
  rw [hget, set_get_self]

theorem getIdByNameAux_congr (name : String) :
    ∀ (l1 l2 : List ScenarioItem) (k : Nat),
      l1.map ScenarioItem.Name = l2.map ScenarioItem.Name →
      getIdByNameAux name k l1 = getIdByNameAux name k l2 := by
  intro l1
  induction l1 with
  | nil =>
      intro l2 k h
      cases l2 with
      | nil => rfl
      | cons b l2' => simp at h
  | cons a l1' ih =>
      intro l2 k h
      cases l2 with
      | nil => simp at h
      | cons b l2' =>
          simp only [List.map_cons, List.cons.injEq] at h
          unfold getIdByNameAux
          rw [h.1]
          by_cases hn : b.Name = name <;> simp [hn, ih l2' (k + 1) h.2]

theorem getIdByNameAux_bound (name : String) :
    ∀ (l : List ScenarioItem) (k : Nat),
      getIdByNameAux name k l = -1
      ∨ ∃ n : Nat, getIdByNameAux name k l = ((k + n : Nat) : Int) ∧ n < l.length := by
  intro l
  induction l with
  | nil => intro k; left; rfl
  | cons a l ih =>
      intro k
      by_cases ha : a.Name = name
      · right
        exact ⟨0, by simp [getIdByNameAux, ha], by simp⟩
      · rcases ih (k + 1) with h | ⟨n, hn, hlt⟩
        · left
          simpa [getIdByNameAux, ha] using h
        · right
          refine ⟨n + 1, ?_, by simpa using hlt⟩
          simp only [getIdByNameAux, if_neg ha]
          rw [hn]
          omega

/-- Running a list of hooks by name succeeds when every name resolves,
invokes exactly the looked-up indices in list order, and preserves the
name column of the suite. -/
theorem runHooks_ok (environ : List (String × String)) (wd : String)
    (oracle : Nat → ScriptOutcome) (base : List ScenarioItem) :
    ∀ (names : List String) (cases : List ScenarioItem),
      cases.map ScenarioItem.Name = base.map ScenarioItem.Name →
      (∀ name ∈ names, getIdByNameL base name ≠ -1) →
      ∃ cases', runHooks environ wd oracle names cases
          = some (cases', names.map fun n => (getIdByNameL base n).toNat)
        ∧ cases'.map ScenarioItem.Name = base.map ScenarioItem.Name := by
  intro names
  induction names with
  | nil => intro cases hmap _; exact ⟨cases, rfl, hmap⟩
  | cons name rest ih =>
      intro cases hmap hres
      have hbase : getIdByNameL base name ≠ -1 := hres name (by simp)
      have hcong : getIdByNameL cases name = getIdByNameL base name :=
        getIdByNameAux_congr name cases base 0 hmap
      obtain ⟨n, hn, hlt⟩ : ∃ n : Nat, getIdByNameL base name = ((n : Nat) : Int)
          ∧ n < base.length := by
        rcases getIdByNameAux_bound name base 0 with h | ⟨n, hn, hlt⟩
        · exact absurd h hbase
        · exact ⟨n, by simpa using hn, hlt⟩
      have hlen : cases.length = base.length := by
        have := congrArg List.length hmap
        simpa using this
      obtain ⟨c2, hrun, hnm⟩ :=
        runBashAt_valid environ wd oracle cases n (by rw [hlen]; exact hlt)
      obtain ⟨cases', hrest, hnames⟩ :=
        ih c2 (hnm.trans hmap) fun x hx => hres x (by simp [hx])
      refine ⟨cases', ?_, hnames⟩
      unfold runHooks
      rw [hcong, hn]
      simp only [hrun, hrest]
      simp [hn]

/-- C7: executing a scenario with a non-empty script, when every hook name
it references resolves, invokes `RunBash` on exactly the before-hook
indices in listed order, then the scenario itself, then the after-hook
indices in listed order; no hypothesis constrains the helpers' `Skip`,
`canShow` or `canRun` flags, so the helpers run regardless of them. -/
theorem exec_hook_order (environ : List (String × String)) (wd : String)
    (oracle : Nat → ScriptOutcome) (cases : List ScenarioItem) (item : Nat)
    (tc : ScenarioItem) (h1 : cases[item]? = some tc) (h2 : tc.Script ≠ "")
    (h3 : ∀ name ∈ tc.Before ++ tc.After, getIdByNameL cases name ≠ -1) :
    ∃ cases', execL environ wd oracle cases item
      = some (cases',
          (tc.Before.map fun n => (getIdByNameL cases n).toNat)
          ++ item :: (tc.After.map fun n => (getIdByNameL cases n).toNat)) := by
  have hb : ∀ name ∈ tc.Before, getIdByNameL cases name ≠ -1 := by
    intro name hx
    exact h3 name (by simp [hx])
  have ha : ∀ name ∈ tc.After, getIdByNameL cases name ≠ -1 := by
    intro name hx
    exact h3 name (by simp [hx])
  have hitem : item < cases.length := (List.getElem?_eq_some.mp h1).1
  obtain ⟨c1, hB, hn1⟩ := runHooks_ok environ wd oracle cases tc.Before cases rfl hb
  have hlen1 : c1.length = cases.length := by
    have := congrArg List.length hn1
    simpa using this
  obtain ⟨c2, hM, hn2⟩ :=
    runBashAt_valid environ wd oracle c1 item (by rw [hlen1]; exact hitem)
  obtain ⟨c3, hA, _⟩ :=
    runHooks_ok environ wd oracle cases tc.After c2 (hn2.trans hn1) ha
  refine ⟨c3, ?_⟩
  unfold execL
  simp only [h1]
  rw [if_pos h2]
  simp only [hB, hM, hA]
  simp [List.append_assoc]

theorem exec_hook_order_witness :
    (hookCases[1]? = some { Case := "t", Script := "m", Before := ["setup"], After := ["cleanup"] }
    ∧ ({ Case := "t", Script := "m", Before := ["setup"], After := ["cleanup"] } :
        ScenarioItem).Script ≠ ""
    ∧ (∀ name ∈ ({ Case := "t", Script := "m", Before := ["setup"], After := ["cleanup"] } :
          ScenarioItem).Before
          ++ ({ Case := "t", Script := "m", Before := ["setup"], After := ["cleanup"] } :
          ScenarioItem).After,
        getIdByNameL hookCases name ≠ -1))
    ∧ ∃ cases', execL [] "" (fun _ => ⟨"", none⟩) hookCases 1
        = some (cases',
            (({ Case := "t", Script := "m", Before := ["setup"], After := ["cleanup"] } :
                ScenarioItem).Before.map fun n => (getIdByNameL hookCases n).toNat)
            ++ 1 :: (({ Case := "t", Script := "m", Before := ["setup"], After := ["cleanup"] } :
                ScenarioItem).After.map fun n => (getIdByNameL hookCases n).toNat)) :=
  ⟨⟨by decide, by decide, by decide⟩,
    exec_hook_order [] "" (fun _ => ⟨"", none⟩) hookCases 1
      { Case := "t", Script := "m", Before := ["setup"], After := ["cleanup"] }
      (by decide) (by decide) (by decide)⟩

end CheckUp
